import Mathlib

/-!
Shallow embedding of `contrib_observer.go` from the jaeger-client-go
repository: the composite span-lifecycle notification dispatcher.

Modelling choices, each noted at the definition it concerns:
* Go interface values (spans, option bags, tag values) that this layer
  only passes through are modelled as `Nat` (opaque identities).
* A per-span observer handle (`ContribSpanObserver` interface value) is
  `Option Nat`: `none` is the Go `nil` interface value, `some k` an
  opaque non-nil handle.
* A tracer-level observer (`ContribObserver` interface value) is an
  opaque identity `ObsId := Nat`; its `OnStartSpan` behaviour is
  supplied by an environment `ObsEnv`, mirroring dynamic dispatch.
* Go slices are modelled as `GoSlice`: the element list together with
  the capacity of the backing array, so that `make([]T, 0, c)` and the
  capacity behaviour of `append` are visible.
* Calls into member observers are recorded as events, so that "invoked
  exactly once, in order, with these arguments" is a statement about
  the emitted event trace.
* Abnormal aborts (Go panics) are modelled by a second set of
  definitions (`...E`) in which each member call may return an error;
  the loops short-circuit, as an unrecovered panic does in Go.
-/

/-- Opaque identity of an `opentracing.Span` value (passed through only). -/
abbrev Span := Nat

/-- Opaque `opentracing.StartSpanOptions` bag (passed through only). -/
abbrev StartSpanOptions := Nat

/-- Opaque `opentracing.FinishOptions` bag (passed through only). -/
abbrev FinishOptions := Nat

/-- Opaque tag value (`interface\x7b\x7d` in the Go source). -/
abbrev TagValue := Nat

/-- A `ContribSpanObserver` interface value: `none` is Go `nil`,
`some k` an opaque non-nil per-span handle. -/
abbrev Handle := Option Nat

/-- Opaque identity of a registered `ContribObserver` interface value. -/
abbrev ObsId := Nat

/-- Opaque value carried by an abnormal abort (a Go panic). -/
abbrev PanicV := Nat

/-- A Go slice: element list plus capacity of the backing array.
`GoSlice.mk l c` models a slice holding `l` over an array of capacity `c`. -/
structure GoSlice (α : Type) where
  data : List α
  cap : Nat
deriving DecidableEq, Repr

/-- Go `append(s, a)`: the element goes at the end; the capacity is kept
when there is room, otherwise Go grows the backing array (the exact grown
capacity is irrelevant here: every append in this development stays within
capacity; `2*cap + 1` stands in for Go's growth rule). -/
def GoSlice.push {α : Type} (s : GoSlice α) (a : α) : GoSlice α :=
  ⟨s.data ++ [a], if s.data.length < s.cap then s.cap else 2 * s.cap + 1⟩

/-- Repeated `append`, left to right. -/
def GoSlice.pushAll {α : Type} (s : GoSlice α) (l : List α) : GoSlice α :=
  l.foldl GoSlice.push s

/-- Events observable at the boundary between the dispatcher and the
per-span member handles: one event per member method invocation, carrying
the receiver handle and the arguments passed. -/
inductive NotifyEvent where
  | setOperationName (h : Handle) (operationName : String)
  | setTag (h : Handle) (key : String) (value : TagValue)
  | finish (h : Handle) (options : FinishOptions)
deriving DecidableEq, Repr

/-- Behaviour environment for tracer-level observers: `behavior i sp n o`
is what the `ContribObserver` with identity `i` returns from
`OnStartSpan(sp, n, o)` — a pair (span observer handle, ok). -/
structure ObsEnv where
  behavior : ObsId → Span → String → StartSpanOptions → Handle × Bool

/-- `compositeObserver` (contrib_observer.go:64-66): a dispatcher holding
the registered tracer-level observers in registration order. -/
structure compositeObserver where
  observers : List ObsId

/-- `compositeSpanObserver` (contrib_observer.go:69-71): a dispatcher
holding the per-span observer handles for one span. The member slice is
kept as a `GoSlice` so its capacity is part of the model. -/
structure compositeSpanObserver where
  observers : GoSlice Handle
deriving DecidableEq, Repr

/-- `noopCompositeSpanObserver` (contrib_observer.go:75): the shared
member-less instance used when no observer is interested. -/
def noopCompositeSpanObserver : compositeSpanObserver := ⟨⟨[], 0⟩⟩

/-- `compositeObserver.append` (contrib_observer.go:77-79):
`o.observers = append(o.observers, contribObserver)`. -/
def compositeObserver.append (o : compositeObserver) (contribObserver : ObsId) :
    compositeObserver :=
  ⟨o.observers ++ [contribObserver]⟩

/-- Result of `compositeObserver.OnStartSpan`. The Go function returns an
interface value that is either the shared global `noopCompositeSpanObserver`
(constructor `noop`) or a freshly allocated `compositeSpanObserver`
(constructor `fresh`): the constructor distinction models pointer identity —
`noop` is the one shared instance, `fresh` a new allocation. -/
inductive StartResult where
  | noop
  | fresh (s : GoSlice Handle)
deriving DecidableEq, Repr

/-- The member handles of the returned set (`nil`/noop has none). -/
def memberList : StartResult → List Handle
  | .noop => []
  | .fresh s => s.data

/-- The capacity of the returned set's backing member storage
(the shared noop instance has capacity 0). -/
def resultCap : StartResult → Nat
  | .noop => 0
  | .fresh s => s.cap

/-- The span-observer set a caller holds for the span: the shared noop
instance or the fresh allocation. -/
def toSpanObserver : StartResult → compositeSpanObserver
  | .noop => noopCompositeSpanObserver
  | .fresh s => ⟨s⟩

/-- The loop body of `compositeObserver.OnStartSpan`
(contrib_observer.go:83-91): `acc` is the local `spanObservers` slice,
`none` standing for the Go `nil` slice; on the first interested observer
the slice is made with capacity `total` (= `len(o.observers)` at the call,
go:87), and each interested observer's handle is appended in turn. -/
def startLoop (env : ObsEnv) (sp : Span) (operationName : String)
    (options : StartSpanOptions) (total : Nat) :
    List ObsId → Option (GoSlice Handle) → Option (GoSlice Handle)
  | [], acc => acc
  | i :: rest, acc =>
    let r := env.behavior i sp operationName options
    if r.2 then
      let s := match acc with
        | none => GoSlice.mk [] total
        | some s => s
      startLoop env sp operationName options total rest (some (s.push r.1))
    else
      startLoop env sp operationName options total rest acc

/-- `compositeObserver.OnStartSpan` (contrib_observer.go:81-96): run the
collection loop; if the collected slice is `nil` or empty
(`len(spanObservers) == 0`, with `len(nil) = 0` in Go) return the shared
noop instance, else allocate a fresh `compositeSpanObserver`. -/
def compositeObserver.OnStartSpan (env : ObsEnv) (o : compositeObserver)
    (sp : Span) (operationName : String) (options : StartSpanOptions) :
    StartResult :=
  match startLoop env sp operationName options o.observers.length o.observers none with
  | none => .noop
  | some s => if s.data.length = 0 then .noop else .fresh s

/-- The spec's description of the result members, stated in the spec's own
words rather than from the loop: the handles of the observers that report
interest, in registration order. Used to compare the code's result against
the spec (claim C1). -/
def specInterestedHandles (env : ObsEnv) (sp : Span) (operationName : String)
    (options : StartSpanOptions) (l : List ObsId) : List Handle :=
  (l.filter (fun i => (env.behavior i sp operationName options).2)).map
    (fun i => (env.behavior i sp operationName options).1)

/-- Loop body of `compositeSpanObserver.OnSetOperationName`
(contrib_observer.go:98-102): one `OnSetOperationName` call per member, in
member order, recorded as events. -/
def onSetOperationNameLoop (operationName : String) : List Handle → List NotifyEvent
  | [] => []
  | h :: rest =>
      NotifyEvent.setOperationName h operationName :: onSetOperationNameLoop operationName rest

/-- Loop body of `compositeSpanObserver.OnSetTag` (contrib_observer.go:104-108). -/
def onSetTagLoop (key : String) (value : TagValue) : List Handle → List NotifyEvent
  | [] => []
  | h :: rest => NotifyEvent.setTag h key value :: onSetTagLoop key value rest

/-- Loop body of `compositeSpanObserver.OnFinish` (contrib_observer.go:110-114). -/
def onFinishLoop (options : FinishOptions) : List Handle → List NotifyEvent
  | [] => []
  | h :: rest => NotifyEvent.finish h options :: onFinishLoop options rest

/-- `compositeSpanObserver.OnSetOperationName` (contrib_observer.go:98-102):
returns the emitted event trace and the receiver's state after the call
(the method body reads `o.observers` and never assigns to it). -/
def compositeSpanObserver.OnSetOperationName (o : compositeSpanObserver)
    (operationName : String) : List NotifyEvent × compositeSpanObserver :=
  (onSetOperationNameLoop operationName o.observers.data, o)

/-- `compositeSpanObserver.OnSetTag` (contrib_observer.go:104-108). -/
def compositeSpanObserver.OnSetTag (o : compositeSpanObserver)
    (key : String) (value : TagValue) : List NotifyEvent × compositeSpanObserver :=
  (onSetTagLoop key value o.observers.data, o)

/-- `compositeSpanObserver.OnFinish` (contrib_observer.go:110-114). -/
def compositeSpanObserver.OnFinish (o : compositeSpanObserver)
    (options : FinishOptions) : List NotifyEvent × compositeSpanObserver :=
  (onFinishLoop options o.observers.data, o)

/-- The legacy `Observer` capability wrapped by `oldObserver`. Its single
hook takes the operation name and start options (no span) and returns a
per-span handle unconditionally — the signature is fixed by the call
`o.obs.OnStartSpan(operationName, options)` at contrib_observer.go:60. -/
structure Observer where
  OnStartSpan : String → StartSpanOptions → Handle

/-- `oldObserver` (contrib_observer.go:55-57): wrapper for old observers. -/
structure oldObserver where
  obs : Observer

/-- `oldObserver.OnStartSpan` (contrib_observer.go:59-61): returns
`(o.obs.OnStartSpan(operationName, options), true)`. The second component
of the result records the hook invocations the body performs: the body
contains exactly one call to the wrapped hook, with these arguments. -/
def oldObserver.OnStartSpan (o : oldObserver) (sp : Span)
    (operationName : String) (options : StartSpanOptions) :
    (Handle × Bool) × List (String × StartSpanOptions) :=
  ((o.obs.OnStartSpan operationName options, true), [(operationName, options)])

/-- The `ContribObserver` behaviour an `oldObserver` exhibits when it sits
in the composite's observer list: the (handle, ok) pair its `OnStartSpan`
returns. -/
def oldObserver.contribBehavior (o : oldObserver) :
    Span → String → StartSpanOptions → Handle × Bool :=
  fun sp operationName options => (o.OnStartSpan sp operationName options).1

/-- One outer notification call on a span-observer set, as data: the three
methods of `compositeSpanObserver` with their arguments. -/
inductive NotifyOp where
  | setOperationName (operationName : String)
  | setTag (key : String) (value : TagValue)
  | finish (options : FinishOptions)
deriving DecidableEq, Repr

/-- Dispatch one `NotifyOp` to the matching `compositeSpanObserver` method. -/
def compositeSpanObserver.applyOp (o : compositeSpanObserver) :
    NotifyOp → List NotifyEvent × compositeSpanObserver
  | .setOperationName operationName => o.OnSetOperationName operationName
  | .setTag key value => o.OnSetTag key value
  | .finish options => o.OnFinish options

/-- Run a sequence of notification calls, threading the set's state and
concatenating the emitted event traces. -/
def compositeSpanObserver.applyOps (o : compositeSpanObserver) :
    List NotifyOp → List NotifyEvent × compositeSpanObserver
  | [] => ([], o)
  | op :: rest =>
    let r := o.applyOp op
    let r2 := r.2.applyOps rest
    (r.1 ++ r2.1, r2.2)

/-- Behaviour environment for the member handles' notification methods
under abnormal-abort semantics: each call either returns normally
(`Except.ok ()`) or aborts with a panic value. -/
structure SpanObsEnv where
  onSetOperationName : Handle → String → Except PanicV Unit
  onSetTag : Handle → String → TagValue → Except PanicV Unit
  onFinish : Handle → FinishOptions → Except PanicV Unit

/-- The shared shape of the three `compositeSpanObserver` method loops
(contrib_observer.go:98-114) under abnormal-abort semantics: invoke `act`
on each member in order, recording one event (`mk h`) per invocation made;
the Go source has no `recover`, so an abort stops the loop there and the
panic value surfaces (`some e`). -/
def fanoutE (act : Handle → Except PanicV Unit) (mk : Handle → NotifyEvent) :
    List Handle → List NotifyEvent × Option PanicV
  | [] => ([], none)
  | h :: rest =>
    match act h with
    | .error e => ([mk h], some e)
    | .ok _ =>
      let r := fanoutE act mk rest
      (mk h :: r.1, r.2)

/-- `compositeSpanObserver.OnSetOperationName` under abnormal-abort
semantics: the loop of contrib_observer.go:98-102 with fallible members. -/
def compositeSpanObserver.OnSetOperationNameE (env : SpanObsEnv)
    (o : compositeSpanObserver) (operationName : String) :
    List NotifyEvent × Option PanicV :=
  fanoutE (fun h => env.onSetOperationName h operationName)
    (fun h => NotifyEvent.setOperationName h operationName) o.observers.data

/-- `compositeSpanObserver.OnSetTag` under abnormal-abort semantics
(contrib_observer.go:104-108). -/
def compositeSpanObserver.OnSetTagE (env : SpanObsEnv)
    (o : compositeSpanObserver) (key : String) (value : TagValue) :
    List NotifyEvent × Option PanicV :=
  fanoutE (fun h => env.onSetTag h key value)
    (fun h => NotifyEvent.setTag h key value) o.observers.data

/-- `compositeSpanObserver.OnFinish` under abnormal-abort semantics
(contrib_observer.go:110-114). -/
def compositeSpanObserver.OnFinishE (env : SpanObsEnv)
    (o : compositeSpanObserver) (options : FinishOptions) :
    List NotifyEvent × Option PanicV :=
  fanoutE (fun h => env.onFinish h options)
    (fun h => NotifyEvent.finish h options) o.observers.data

/-- Behaviour environment for tracer-level observers whose `OnStartSpan`
may abort abnormally. -/
structure ObsEnvE where
  behavior : ObsId → Span → String → StartSpanOptions → Except PanicV (Handle × Bool)

/-- The loop of `compositeObserver.OnStartSpan` (contrib_observer.go:83-91)
under abnormal-abort semantics: returns the list of observers actually
queried, and either the collected slice or the surfaced panic value. -/
def startLoopE (env : ObsEnvE) (sp : Span) (operationName : String)
    (options : StartSpanOptions) (total : Nat) :
    List ObsId → Option (GoSlice Handle) →
    List ObsId × Except PanicV (Option (GoSlice Handle))
  | [], acc => ([], .ok acc)
  | i :: rest, acc =>
    match env.behavior i sp operationName options with
    | .error e => ([i], .error e)
    | .ok r =>
      let acc' :=
        if r.2 then
          some ((match acc with
            | none => GoSlice.mk [] total
            | some s => s).push r.1)
        else acc
      let rec' := startLoopE env sp operationName options total rest acc'
      (i :: rec'.1, rec'.2)

/-- `compositeObserver.OnStartSpan` under abnormal-abort semantics: the
queried observers, and either the returned set or the surfaced panic. -/
def compositeObserver.OnStartSpanE (env : ObsEnvE) (o : compositeObserver)
    (sp : Span) (operationName : String) (options : StartSpanOptions) :
    List ObsId × Except PanicV StartResult :=
  let r := startLoopE env sp operationName options o.observers.length o.observers none
  (r.1, r.2.map (fun spanObservers =>
    match spanObservers with
    | none => .noop
    | some s => if s.data.length = 0 then .noop else .fresh s))

/-! Helper lemmas (shared; none of these is a claim theorem). -/

/-- An append never changes the elements already in the slice. -/
theorem GoSlice.push_data {α : Type} (s : GoSlice α) (a : α) :
    (s.push a).data = s.data ++ [a] := rfl

/-- Repeated appends concatenate, whatever the capacities do. -/
theorem GoSlice.pushAll_data {α : Type} (l : List α) :
    ∀ s : GoSlice α, (s.pushAll l).data = s.data ++ l := by
  induction l with
  | nil => intro s; simp [GoSlice.pushAll]
  | cons a rest ih =>
    intro s
    have : s.pushAll (a :: rest) = (s.push a).pushAll rest := rfl
    rw [this, ih, GoSlice.push_data, List.append_assoc]
    rfl

/-- Appends that stay within capacity keep the capacity. -/
theorem GoSlice.pushAll_cap {α : Type} (l : List α) :
    ∀ s : GoSlice α, s.data.length + l.length ≤ s.cap → (s.pushAll l).cap = s.cap := by
  induction l with
  | nil => intro s _; rfl
  | cons a rest ih =>
    intro s hle
    have hlt : s.data.length < s.cap := by simp at hle; omega
    have hpush : s.push a = ⟨s.data ++ [a], s.cap⟩ := by
      simp [GoSlice.push, hlt]
    have : s.pushAll (a :: rest) = (s.push a).pushAll rest := rfl
    rw [this, hpush]
    apply ih
    simp at hle ⊢
    omega

/-- Filling an empty slice within capacity gives exactly that list and
keeps the capacity. -/
theorem GoSlice.pushAll_mk_nil {α : Type} (l : List α) (c : Nat)
    (h : l.length ≤ c) : (GoSlice.mk [] c).pushAll l = GoSlice.mk l c := by
  have hd := GoSlice.pushAll_data l (GoSlice.mk ([] : List α) c)
  have hc := GoSlice.pushAll_cap l (GoSlice.mk ([] : List α) c) (by simpa using h)
  cases heq : (GoSlice.mk ([] : List α) c).pushAll l with
  | mk d cp =>
    simp [heq] at hd hc
    simp [hd, hc]

/-- Unfolding of the spec-side interested-handles list over a cons. -/
theorem specInterestedHandles_cons (env : ObsEnv) (sp : Span)
    (operationName : String) (options : StartSpanOptions) (i : ObsId)
    (rest : List ObsId) :
    specInterestedHandles env sp operationName options (i :: rest) =
      if (env.behavior i sp operationName options).2 then
        (env.behavior i sp operationName options).1 ::
          specInterestedHandles env sp operationName options rest
      else specInterestedHandles env sp operationName options rest := by
  by_cases h : (env.behavior i sp operationName options).2 <;>
    simp [specInterestedHandles, List.filter_cons, h]

/-- There are never more interested handles than observers. -/
theorem specInterestedHandles_length_le (env : ObsEnv) (sp : Span)
    (operationName : String) (options : StartSpanOptions) (l : List ObsId) :
    (specInterestedHandles env sp operationName options l).length ≤ l.length := by
  simp only [specInterestedHandles, List.length_map]
  exact List.length_filter_le _ _

/-- Once the local slice exists, the loop appends exactly the handles of
the interested observers, in order. -/
theorem startLoop_some (env : ObsEnv) (sp : Span) (operationName : String)
    (options : StartSpanOptions) (total : Nat) (l : List ObsId) :
    ∀ s : GoSlice Handle,
      startLoop env sp operationName options total l (some s) =
        some (s.pushAll (specInterestedHandles env sp operationName options l)) := by
  induction l with
  | nil => intro s; simp [startLoop, specInterestedHandles, GoSlice.pushAll]
  | cons i rest ih =>
    intro s
    rw [specInterestedHandles_cons]
    by_cases h : (env.behavior i sp operationName options).2
    · simp only [startLoop, h, if_pos, ih]
      rfl
    · simp only [startLoop, h, if_neg, ih]
      simp [h]

/-- Starting from the nil slice, the loop returns nil exactly when no
observer is interested, and otherwise the freshly made slice (capacity
`total`) filled with the interested handles in order. -/
theorem startLoop_none (env : ObsEnv) (sp : Span) (operationName : String)
    (options : StartSpanOptions) (total : Nat) (l : List ObsId) :
    startLoop env sp operationName options total l none =
      (if specInterestedHandles env sp operationName options l = [] then none
       else some ((GoSlice.mk [] total).pushAll
         (specInterestedHandles env sp operationName options l))) := by
  induction l with
  | nil => simp [startLoop, specInterestedHandles]
  | cons i rest ih =>
    rw [specInterestedHandles_cons]
    by_cases h : (env.behavior i sp operationName options).2
    · simp only [startLoop, h, if_pos]
      rw [startLoop_some]
      simp [GoSlice.pushAll]
    · simp only [startLoop, h, if_neg, ih]
      simp [h]

/-- Full characterization of `compositeObserver.OnStartSpan`: the shared
noop instance exactly when no observer is interested; otherwise a fresh
set holding the interested handles in registration order, over storage of
capacity `len(o.observers)`. -/
theorem OnStartSpan_char (env : ObsEnv) (o : compositeObserver) (sp : Span)
    (operationName : String) (options : StartSpanOptions) :
    compositeObserver.OnStartSpan env o sp operationName options =
      (if specInterestedHandles env sp operationName options o.observers = [] then
        StartResult.noop
       else StartResult.fresh
         (GoSlice.mk (specInterestedHandles env sp operationName options o.observers)
           o.observers.length)) := by
  unfold compositeObserver.OnStartSpan
  rw [startLoop_none]
  by_cases h : specInterestedHandles env sp operationName options o.observers = []
  · simp [h]
  · rw [if_neg h, if_neg h,
      GoSlice.pushAll_mk_nil _ _ (specInterestedHandles_length_le env sp operationName options o.observers)]
    simp [h]

/-- The operation-name loop emits exactly one event per member, in order. -/
theorem onSetOperationNameLoop_eq_map (operationName : String) (l : List Handle) :
    onSetOperationNameLoop operationName l =
      l.map (fun h => NotifyEvent.setOperationName h operationName) := by
  induction l with
  | nil => rfl
  | cons h rest ih => simp [onSetOperationNameLoop, ih]

/-- The tag loop emits exactly one event per member, in order. -/
theorem onSetTagLoop_eq_map (key : String) (value : TagValue) (l : List Handle) :
    onSetTagLoop key value l = l.map (fun h => NotifyEvent.setTag h key value) := by
  induction l with
  | nil => rfl
  | cons h rest ih => simp [onSetTagLoop, ih]

/-- The finish loop emits exactly one event per member, in order. -/
theorem onFinishLoop_eq_map (options : FinishOptions) (l : List Handle) :
    onFinishLoop options l = l.map (fun h => NotifyEvent.finish h options) := by
  induction l with
  | nil => rfl
  | cons h rest ih => simp [onFinishLoop, ih]

/-- If member `i` aborts and all members before it return normally, the
fan-out invokes exactly the members up to and including `i`, in order, and
surfaces that abort value. -/
theorem fanoutE_error (act : Handle → Except PanicV Unit) (mk : Handle → NotifyEvent) :
    ∀ (l : List Handle) (i : Nat) (e : PanicV), i < l.length →
      (∀ j, j < i → act (l.getD j none) = .ok ()) →
      act (l.getD i none) = .error e →
      fanoutE act mk l = ((l.take (i + 1)).map mk, some e) := by
  intro l
  induction l with
  | nil => intro i e hi; simp at hi
  | cons h rest ih =>
    intro i e hi hok herr
    cases i with
    | zero =>
      simp only [List.getD_cons_zero] at herr
      simp [fanoutE, herr]
    | succ i' =>
      have h0 : act h = .ok () := by
        have := hok 0 (Nat.succ_pos _)
        simpa using this
      have hrec : fanoutE act mk rest = ((rest.take (i' + 1)).map mk, some e) := by
        apply ih i' e
        · simpa using hi
        · intro j hj
          have := hok (j + 1) (by omega)
          simpa using this
        · simpa using herr
      simp [fanoutE, h0, hrec]

/-- If observer `i` aborts at the interest query and all observers before
it return normally, the start fan-out queries exactly the observers up to
and including `i`, in order, and surfaces that abort value — whatever the
accumulated slice was. -/
theorem startLoopE_error (env : ObsEnvE) (sp : Span) (operationName : String)
    (options : StartSpanOptions) (total : Nat) :
    ∀ (l : List ObsId) (acc : Option (GoSlice Handle)) (i : Nat) (e : PanicV),
      i < l.length →
      (∀ j, j < i → ∃ p, env.behavior (l.getD j 0) sp operationName options = .ok p) →
      env.behavior (l.getD i 0) sp operationName options = .error e →
      startLoopE env sp operationName options total l acc = (l.take (i + 1), .error e) := by
  intro l
  induction l with
  | nil => intro acc i e hi; simp at hi
  | cons a rest ih =>
    intro acc i e hi hok herr
    cases i with
    | zero =>
      simp only [List.getD_cons_zero] at herr
      simp [startLoopE, herr]
    | succ i' =>
      have h0 := hok 0 (Nat.succ_pos _)
      rw [List.getD_cons_zero] at h0
      obtain ⟨p, hp⟩ := h0
      have hrec : ∀ acc2, startLoopE env sp operationName options total rest acc2 =
          (rest.take (i' + 1), .error e) := by
        intro acc2
        apply ih acc2 i' e (by simpa using hi)
        · intro j hj
          have := hok (j + 1) (by omega)
          simpa using this
        · simpa using herr
      simp [startLoopE, hp, hrec]

/-- Every single notification call on the shared noop set emits no event
and leaves the set as the noop set. -/
theorem applyOp_noop (op : NotifyOp) :
    noopCompositeSpanObserver.applyOp op = ([], noopCompositeSpanObserver) := by
  cases op <;>
    rfl

/-- Any sequence of notification calls on the shared noop set emits no
event and leaves the set as the noop set. -/
theorem applyOps_noop (ops : List NotifyOp) :
    noopCompositeSpanObserver.applyOps ops = ([], noopCompositeSpanObserver) := by
  induction ops with
  | nil => rfl
  | cons op rest ih =>
    simp [compositeSpanObserver.applyOps, applyOp_noop, ih]

/-! Claim theorems. -/

/-- C1: with N registered tracer-level observers of which exactly K report
interest for a given span start, `OnStartSpan` returns a set with exactly K
members — the interested observers' handles — in the relative registration
order of those K observers. -/
theorem claim_C1 (env : ObsEnv) (o : compositeObserver) (sp : Span)
    (operationName : String) (options : StartSpanOptions) :
    memberList (compositeObserver.OnStartSpan env o sp operationName options) =
      specInterestedHandles env sp operationName options o.observers ∧
    (memberList (compositeObserver.OnStartSpan env o sp operationName options)).length =
      (o.observers.filter
        (fun i => (env.behavior i sp operationName options).2)).length := by
  have hmem : memberList (compositeObserver.OnStartSpan env o sp operationName options) =
      specInterestedHandles env sp operationName options o.observers := by
    rw [OnStartSpan_char]
    by_cases h : specInterestedHandles env sp operationName options o.observers = []
    · simp [h, memberList]
    · simp [h, memberList]
  refine ⟨hmem, ?_⟩
  rw [hmem]
  simp [specInterestedHandles]

/-- C2: one outer notification call on a set with M members invokes the
matching operation on each of the M members exactly once, in the set's
member order, passing the outer call's arguments through unchanged —
for each of the three notification operations. -/
theorem claim_C2 (o : compositeSpanObserver) (operationName key : String)
    (value : TagValue) (options : FinishOptions) :
    ((o.OnSetOperationName operationName).1.length = o.observers.data.length ∧
     (o.OnSetTag key value).1.length = o.observers.data.length ∧
     (o.OnFinish options).1.length = o.observers.data.length) ∧
    (∀ i, i < o.observers.data.length →
      (o.OnSetOperationName operationName).1.getD i (NotifyEvent.finish none 0) =
        NotifyEvent.setOperationName (o.observers.data.getD i none) operationName ∧
      (o.OnSetTag key value).1.getD i (NotifyEvent.finish none 0) =
        NotifyEvent.setTag (o.observers.data.getD i none) key value ∧
      (o.OnFinish options).1.getD i (NotifyEvent.finish none 0) =
        NotifyEvent.finish (o.observers.data.getD i none) options) := by
  constructor
  · refine ⟨?_, ?_, ?_⟩ <;>
      simp [compositeSpanObserver.OnSetOperationName, compositeSpanObserver.OnSetTag,
        compositeSpanObserver.OnFinish, onSetOperationNameLoop_eq_map,
        onSetTagLoop_eq_map, onFinishLoop_eq_map]
  · intro i hi
    have hi1 : i < (o.observers.data.map
        (fun h => NotifyEvent.setOperationName h operationName)).length := by
      simpa using hi
    have hi2 : i < (o.observers.data.map
        (fun h => NotifyEvent.setTag h key value)).length := by
      simpa using hi
    have hi3 : i < (o.observers.data.map
        (fun h => NotifyEvent.finish h options)).length := by
      simpa using hi
    refine ⟨?_, ?_, ?_⟩
    · rw [compositeSpanObserver.OnSetOperationName]
      simp only [onSetOperationNameLoop_eq_map]
      rw [List.getD_eq_getElem _ _ hi1, List.getD_eq_getElem _ _ hi,
        List.getElem_map]
    · rw [compositeSpanObserver.OnSetTag]
      simp only [onSetTagLoop_eq_map]
      rw [List.getD_eq_getElem _ _ hi2, List.getD_eq_getElem _ _ hi,
        List.getElem_map]
    · rw [compositeSpanObserver.OnFinish]
      simp only [onFinishLoop_eq_map]
      rw [List.getD_eq_getElem _ _ hi3, List.getD_eq_getElem _ _ hi,
        List.getElem_map]

/-- C2 witness: on a concrete two-member set, the second emitted tag event
addresses the second member with the given key and value. -/
theorem claim_C2_witness :
    ((compositeSpanObserver.mk ⟨[some 1, some 2], 2⟩).OnSetTag "k" 7).1.getD 1
        (NotifyEvent.finish none 0) =
      NotifyEvent.setTag
        ((compositeSpanObserver.mk ⟨[some 1, some 2], 2⟩).observers.data.getD 1 none)
        "k" 7 :=
  ((claim_C2 (compositeSpanObserver.mk ⟨[some 1, some 2], 2⟩) "x" "k" 7 0).2 1
    (by decide)).2.1

/-- C3: whenever zero observers report interest (including when zero are
registered), `OnStartSpan` returns the shared no-op instance — modelled by
the dedicated `StartResult.noop` constructor, which stands for returning
the one global `noopCompositeSpanObserver`, as opposed to `StartResult.fresh`,
which stands for a new allocation — and the identical value is returned
across repeated calls and across distinct spans. -/
theorem claim_C3 (env : ObsEnv) (o : compositeObserver) (sp sp2 : Span)
    (operationName operationName2 : String) (options options2 : StartSpanOptions)
    (h : o.observers.filter (fun i => (env.behavior i sp operationName options).2) = [])
    (h2 : o.observers.filter (fun i => (env.behavior i sp2 operationName2 options2).2) = []) :
    compositeObserver.OnStartSpan env o sp operationName options = StartResult.noop ∧
    compositeObserver.OnStartSpan env o sp2 operationName2 options2 =
      compositeObserver.OnStartSpan env o sp operationName options := by
  have e1 : compositeObserver.OnStartSpan env o sp operationName options =
      StartResult.noop := by
    rw [OnStartSpan_char]
    simp [specInterestedHandles, h]
  have e2 : compositeObserver.OnStartSpan env o sp2 operationName2 options2 =
      StartResult.noop := by
    rw [OnStartSpan_char]
    simp [specInterestedHandles, h2]
  exact ⟨e1, e2.trans e1.symm⟩

/-- C3 witness: with two registered observers that never report interest,
two span starts on distinct spans both return the shared noop value. -/
theorem claim_C3_witness :
    compositeObserver.OnStartSpan ⟨fun _ _ _ _ => (none, false)⟩ ⟨[0, 1]⟩ 0 "a" 0 =
      StartResult.noop :=
  (claim_C3 ⟨fun _ _ _ _ => (none, false)⟩ ⟨[0, 1]⟩ 0 1 "a" "b" 0 0
    (by decide) (by decide)).1

/-- C4: the legacy adapter's `OnStartSpan` reports interest `true`, invokes
the wrapped hook exactly once with the call's operation name and options,
and returns that hook's handle; the result — hence the interest decision
and the single hook call — does not depend on the span identity, and the
interest decision holds for every operation name alike. -/
theorem claim_C4 (o : oldObserver) (sp sp2 : Span) (operationName : String)
    (options : StartSpanOptions) :
    (o.OnStartSpan sp operationName options).1.2 = true ∧
    (o.OnStartSpan sp operationName options).2 = [(operationName, options)] ∧
    (o.OnStartSpan sp operationName options).1.1 =
      o.obs.OnStartSpan operationName options ∧
    o.OnStartSpan sp2 operationName options = o.OnStartSpan sp operationName options :=
  ⟨rfl, rfl, rfl, rfl⟩

/-- Concrete two-observer environment for C5: observer 0 declines,
observer 1 reports interest with handle `some 7`. -/
def envK1 : ObsEnv := ⟨fun i _ _ _ => if i = 1 then (some 7, true) else (none, false)⟩

/-- Concrete composite holding the two observers of `envK1`. -/
def obsK1 : compositeObserver := ⟨[0, 1]⟩

/-- C5 counterexample: with two registered observers of which one is
interested (K = 1), `OnStartSpan` allocates a set whose backing storage
capacity differs from the collected count — the claim as stated is false.
(The capacity is 2, the registered count, while K = 1.) -/
theorem claim_C5_counterexample :
    memberList (compositeObserver.OnStartSpan envK1 obsK1 0 "op" 0) ≠ [] ∧
    resultCap (compositeObserver.OnStartSpan envK1 obsK1 0 "op" 0) ≠
      (memberList (compositeObserver.OnStartSpan envK1 obsK1 0 "op" 0)).length := by
  decide

/-- C5 (amended): whenever at least one observer reports interest,
`OnStartSpan` allocates a fresh set whose backing member storage is
pre-sized to the number of registered observers (`len(o.observers)`),
holding the K collected handles. -/
theorem claim_C5_amended (env : ObsEnv) (o : compositeObserver) (sp : Span)
    (operationName : String) (options : StartSpanOptions)
    (h : specInterestedHandles env sp operationName options o.observers ≠ []) :
    compositeObserver.OnStartSpan env o sp operationName options =
      StartResult.fresh (GoSlice.mk
        (specInterestedHandles env sp operationName options o.observers)
        o.observers.length) := by
  rw [OnStartSpan_char]
  simp [h]

/-- C5 witness: the amended statement at the concrete `envK1` input. -/
theorem claim_C5_witness :
    compositeObserver.OnStartSpan envK1 obsK1 0 "op" 0 =
      StartResult.fresh (GoSlice.mk
        (specInterestedHandles envK1 0 "op" 0 obsK1.observers)
        obsK1.observers.length) :=
  claim_C5_amended envK1 obsK1 0 "op" 0 (by decide)

/-- C6: any sequence of notification calls on the shared no-op set, in any
order, emits no event and leaves the set the no-op set, and under
abnormal-abort semantics every single notification operation on it returns
normally (no surfaced abort), whatever the member environment. -/
theorem claim_C6 (ops : List NotifyOp) (env : SpanObsEnv)
    (operationName key : String) (value : TagValue) (options : FinishOptions) :
    noopCompositeSpanObserver.applyOps ops = ([], noopCompositeSpanObserver) ∧
    compositeSpanObserver.OnSetOperationNameE env noopCompositeSpanObserver
      operationName = ([], none) ∧
    compositeSpanObserver.OnSetTagE env noopCompositeSpanObserver key value =
      ([], none) ∧
    compositeSpanObserver.OnFinishE env noopCompositeSpanObserver options =
      ([], none) :=
  ⟨applyOps_noop ops, rfl, rfl, rfl⟩

/-- C7: the three notification operations leave the member list of a
`compositeSpanObserver` exactly as it was before the call; membership is
fixed at construction (and the dispatcher exposes no add or remove
operation on the set). -/
theorem claim_C7 (o : compositeSpanObserver) (operationName key : String)
    (value : TagValue) (options : FinishOptions) :
    (o.OnSetOperationName operationName).2.observers = o.observers ∧
    (o.OnSetTag key value).2.observers = o.observers ∧
    (o.OnFinish options).2.observers = o.observers :=
  ⟨rfl, rfl, rfl⟩

/-- C8: `append` adds the observer at the end of the ObserverSet, leaving
all previously registered observers unchanged in their prior positions;
there is no uniqueness check — registering the same observer twice yields
two entries — and the operation is total (no failure mode). -/
theorem claim_C8 (o : compositeObserver) (c : ObsId) :
    (o.append c).observers.length = o.observers.length + 1 ∧
    (∀ i, i < o.observers.length →
      (o.append c).observers.getD i 0 = o.observers.getD i 0) ∧
    (o.append c).observers.getLast? = some c ∧
    ((o.append c).append c).observers.count c = o.observers.count c + 2 := by
  refine ⟨?_, ?_, ?_, ?_⟩
  · simp [compositeObserver.append]
  · intro i hi
    have hi' : i < ((o.append c).observers).length := by
      simp [compositeObserver.append]
      omega
    rw [List.getD_eq_getElem _ _ hi', List.getD_eq_getElem _ _ hi]
    simp [compositeObserver.append, List.getElem_append_left hi]
  · simp [compositeObserver.append]
  · simp [compositeObserver.append, List.count_append]

/-- C8 witness: appending to a concrete one-observer set keeps the first
entry in place. -/
theorem claim_C8_witness :
    ((compositeObserver.mk [5]).append 9).observers.getD 0 0 =
      (compositeObserver.mk [5]).observers.getD 0 0 :=
  (claim_C8 (compositeObserver.mk [5]) 9).2.1 0 (by decide)

/-- C9: during any fan-out — any of the three notification operations, or
the interest query at span start — if the member at position `i` aborts
abnormally while all earlier members return normally, the dispatcher
performs no recovery: exactly the members up to and including position `i`
are invoked (none after it), and the abort value surfaces unchanged to the
dispatcher's caller. -/
theorem claim_C9 :
    (∀ (env : SpanObsEnv) (o : compositeSpanObserver) (operationName : String)
      (i : Nat) (e : PanicV), i < o.observers.data.length →
      (∀ j, j < i →
        env.onSetOperationName (o.observers.data.getD j none) operationName = .ok ()) →
      env.onSetOperationName (o.observers.data.getD i none) operationName = .error e →
      compositeSpanObserver.OnSetOperationNameE env o operationName =
        ((o.observers.data.take (i + 1)).map
          (fun h => NotifyEvent.setOperationName h operationName), some e)) ∧
    (∀ (env : SpanObsEnv) (o : compositeSpanObserver) (key : String)
      (value : TagValue) (i : Nat) (e : PanicV), i < o.observers.data.length →
      (∀ j, j < i →
        env.onSetTag (o.observers.data.getD j none) key value = .ok ()) →
      env.onSetTag (o.observers.data.getD i none) key value = .error e →
      compositeSpanObserver.OnSetTagE env o key value =
        ((o.observers.data.take (i + 1)).map
          (fun h => NotifyEvent.setTag h key value), some e)) ∧
    (∀ (env : SpanObsEnv) (o : compositeSpanObserver) (options : FinishOptions)
      (i : Nat) (e : PanicV), i < o.observers.data.length →
      (∀ j, j < i →
        env.onFinish (o.observers.data.getD j none) options = .ok ()) →
      env.onFinish (o.observers.data.getD i none) options = .error e →
      compositeSpanObserver.OnFinishE env o options =
        ((o.observers.data.take (i + 1)).map
          (fun h => NotifyEvent.finish h options), some e)) ∧
    (∀ (envE : ObsEnvE) (o : compositeObserver) (sp : Span)
      (operationName : String) (options : StartSpanOptions) (i : Nat) (e : PanicV),
      i < o.observers.length →
      (∀ j, j < i →
        ∃ p, envE.behavior (o.observers.getD j 0) sp operationName options = .ok p) →
      envE.behavior (o.observers.getD i 0) sp operationName options = .error e →
      compositeObserver.OnStartSpanE envE o sp operationName options =
        (o.observers.take (i + 1), .error e)) := by
  refine ⟨?_, ?_, ?_, ?_⟩
  · intro env o operationName i e hi hok herr
    exact fanoutE_error _ _ o.observers.data i e hi hok herr
  · intro env o key value i e hi hok herr
    exact fanoutE_error _ _ o.observers.data i e hi hok herr
  · intro env o options i e hi hok herr
    exact fanoutE_error _ _ o.observers.data i e hi hok herr
  · intro envE o sp operationName options i e hi hok herr
    unfold compositeObserver.OnStartSpanE
    rw [startLoopE_error envE sp operationName options o.observers.length
      o.observers none i e hi hok herr]
    rfl

/-- Member environment in which every notification call aborts with 3. -/
def envAbort : SpanObsEnv :=
  ⟨fun _ _ => .error 3, fun _ _ _ => .error 3, fun _ _ => .error 3⟩

/-- Tracer-level environment in which every interest query aborts with 3. -/
def envAbortStart : ObsEnvE := ⟨fun _ _ _ _ => .error 3⟩

/-- Concrete two-member span-observer set for the C9 witness. -/
def setAbortW : compositeSpanObserver := ⟨⟨[some 1, some 2], 2⟩⟩

/-- Concrete two-observer composite for the C9 witness. -/
def obsAbortW : compositeObserver := ⟨[4, 5]⟩

/-- C9 witness: when the first member aborts, only the first member is
invoked and the abort value surfaces — for a notification fan-out and for
the span-start interest query. -/
theorem claim_C9_witness :
    compositeSpanObserver.OnSetOperationNameE envAbort setAbortW "x" =
      ((setAbortW.observers.data.take 1).map
        (fun h => NotifyEvent.setOperationName h "x"), some 3) ∧
    compositeObserver.OnStartSpanE envAbortStart obsAbortW 0 "x" 0 =
      (obsAbortW.observers.take 1, .error 3) :=
  ⟨claim_C9.1 envAbort setAbortW "x" 0 3 (by decide)
      (fun j hj => absurd hj (Nat.not_lt_zero j)) rfl,
   claim_C9.2.2.2 envAbortStart obsAbortW 0 "x" 0 0 3 (by decide)
      (fun j hj => absurd hj (Nat.not_lt_zero j)) rfl⟩

/-- C10: a legacy observer whose wrapped hook returns the nil handle is
still reported interested, so the nil handle is a member of the returned
set, and each of the three notification operations on that set does invoke
the matching method on the nil member (one event addressed to `none` per
operation). -/
theorem claim_C10 (env : ObsEnv) (o : compositeObserver) (sp : Span)
    (operationName operationName2 key : String) (options : StartSpanOptions)
    (value : TagValue) (fOptions : FinishOptions) (old : oldObserver) (i : ObsId)
    (hmem : i ∈ o.observers)
    (hbeh : env.behavior i = old.contribBehavior)
    (hnil : old.obs.OnStartSpan operationName options = none) :
    none ∈ memberList (compositeObserver.OnStartSpan env o sp operationName options) ∧
    NotifyEvent.setOperationName none operationName2 ∈
      ((toSpanObserver (compositeObserver.OnStartSpan env o sp operationName options)).OnSetOperationName
        operationName2).1 ∧
    NotifyEvent.setTag none key value ∈
      ((toSpanObserver (compositeObserver.OnStartSpan env o sp operationName options)).OnSetTag
        key value).1 ∧
    NotifyEvent.finish none fOptions ∈
      ((toSpanObserver (compositeObserver.OnStartSpan env o sp operationName options)).OnFinish
        fOptions).1 := by
  have hb : env.behavior i sp operationName options = (none, true) := by
    rw [hbeh]
    simp [oldObserver.contribBehavior, oldObserver.OnStartSpan, hnil]
  have hfil : i ∈ o.observers.filter
      (fun j => (env.behavior j sp operationName options).2) :=
    List.mem_filter.mpr ⟨hmem, by simp [hb]⟩
  have hhits : none ∈ specInterestedHandles env sp operationName options o.observers := by
    have := List.mem_map_of_mem
      (fun j => (env.behavior j sp operationName options).1) hfil
    simpa [specInterestedHandles, hb] using this
  have hne : specInterestedHandles env sp operationName options o.observers ≠ [] := by
    intro hempty
    rw [hempty] at hhits
    exact absurd hhits (List.not_mem_nil none)
  have hres : compositeObserver.OnStartSpan env o sp operationName options =
      StartResult.fresh (GoSlice.mk
        (specInterestedHandles env sp operationName options o.observers)
        o.observers.length) := by
    rw [OnStartSpan_char]
    simp [hne]
  have hdata : (toSpanObserver
      (compositeObserver.OnStartSpan env o sp operationName options)).observers.data =
      specInterestedHandles env sp operationName options o.observers := by
    rw [hres]
    rfl
  refine ⟨?_, ?_, ?_, ?_⟩
  · rw [hres]
    simpa [memberList] using hhits
  · rw [compositeSpanObserver.OnSetOperationName]
    simp only [onSetOperationNameLoop_eq_map, hdata]
    exact List.mem_map_of_mem _ hhits
  · rw [compositeSpanObserver.OnSetTag]
    simp only [onSetTagLoop_eq_map, hdata]
    exact List.mem_map_of_mem _ hhits
  · rw [compositeSpanObserver.OnFinish]
    simp only [onFinishLoop_eq_map, hdata]
    exact List.mem_map_of_mem _ hhits

/-- Legacy observer whose hook always returns the nil handle. -/
def nilHookOld : oldObserver := ⟨⟨fun _ _ => none⟩⟩

/-- Environment registering `nilHookOld` behind every observer identity. -/
def envNilOld : ObsEnv := ⟨fun _ => nilHookOld.contribBehavior⟩

/-- C10 witness: with one registered nil-returning legacy observer, the
nil handle is a member of the returned set. -/
theorem claim_C10_witness :
    none ∈ memberList (compositeObserver.OnStartSpan envNilOld ⟨[0]⟩ 0 "a" 0) :=
  (claim_C10 envNilOld ⟨[0]⟩ 0 "a" "b" "k" 0 7 9 nilHookOld 0
    (by decide) rfl rfl).1
